import Mathlib

set_option maxRecDepth 1000000

/-!
Verification development for the report-integrity subsystem of the
digital-forensics analysis tool.

The embedding models JavaScript strings as `List Char`.  Functions of the
repository are translated from their sources:
  - hash-utils (createVerificationHash, verifyContent),
  - the report canonicalization (the two regex replaces in saveReport /
    verifyReportFile),
  - the ReportHistoryService (saveReport, getReportHistory, findReportById,
    verifyReportFile).
External collaborators of the repository (node crypto SHA-256, bcryptjs,
the built-in JSON serializer/parser, the file system) are modelled as
explicit deterministic primitives, with the nondeterministic inputs
(bcrypt salt, generated UUID, current time, rendered output of the
external Renderer) passed as explicit parameters.
-/

/-! ## Basic character and list helpers -/

/-- Decimal digit character for a digit value (0-9). -/
def digitChar (n : Nat) : Char :=
  if n = 0 then '0' else if n = 1 then '1' else if n = 2 then '2'
  else if n = 3 then '3' else if n = 4 then '4' else if n = 5 then '5'
  else if n = 6 then '6' else if n = 7 then '7' else if n = 8 then '8' else '9'

/-- Fuel-indexed digit expansion (structural recursion, so that terms
reduce inside the kernel). -/
def natDigitsAux : Nat → Nat → List Char
  | 0, _ => []
  | fuel + 1, n =>
    if n < 10 then [digitChar n]
    else natDigitsAux fuel (n / 10) ++ [digitChar (n % 10)]

/-- Decimal digit characters of a natural number (most significant first). -/
def natDigits (n : Nat) : List Char :=
  natDigitsAux (n + 1) n

/-- Whitespace test matching the common characters of the regex class \s. -/
def isWsChar (c : Char) : Bool :=
  c = ' ' || c = '\t' || c = '\n' || c = '\r'

/-- Hexadecimal digit test for the character class of the strict report-id
regex with the /i flag: 0-9, a-f, A-F. -/
def isHexDigit (c : Char) : Bool :=
  ('0' ≤ c && c ≤ '9') || ('a' ≤ c && c ≤ 'f') || ('A' ≤ c && c ≤ 'F')

/-- ASCII lowercasing, modelling case-insensitive (/i) regex matching. -/
def lowerChar (c : Char) : Char :=
  if 'A' ≤ c && c ≤ 'Z' then Char.ofNat (c.toNat + 32) else c

/-! ## Integrity hasher (src/utils/hash-utils.ts)

The two cryptographic primitives are external npm/node collaborators of the
repository and are modelled as deterministic executable functions; every
claim about them depends only on determinism and recomputability, never on
actual digest values. -/

/-- Rolling content digest standing in for an external cryptographic hash:
deterministic, fixed-range output. -/
def rollHash (cs : List Char) : Nat :=
  cs.foldl (fun a c => (a * 131 + c.toNat + 1) % 2305843009213693952) 7

/-- Modelled from the spec: the external SHA-256 digest of node crypto
(hex-encoded fixed-length content digest).  Modelled as a deterministic
digest function of the content. -/
def sha256hex (content : List Char) : List Char :=
  natDigits (rollHash content)

/-- Modelled from the spec: bcryptjs.hashSync — the salted slow one-way
transform whose self-contained output embeds its own salt
(scheme/cost/salt/digest, separated the bcrypt way by the character that
cannot appear in a salt).  The library-generated random salt is passed
explicitly. -/
def bcryptHashSync (password salt : List Char) : List Char :=
  "$2a$05$".data ++ salt ++ '$' :: natDigits (rollHash (salt ++ password))

/-- Split at the first dollar sign: the salt/digest separation used when a
bcrypt hash is re-parsed for comparison. -/
def splitDollar : List Char → List Char × List Char
  | [] => ([], [])
  | c :: cs =>
    if c = '$' then ([], cs)
    else
      let p := splitDollar cs
      (c :: p.1, p.2)

/-- Modelled from the spec: bcryptjs.compareSync — re-derives the salt from
the stored transform output and compares the recomputed digest; false on a
malformed stored output (the library throw is caught by the caller). -/
def bcryptCompareSync (password h : List Char) : Bool :=
  if ("$2a$05$".data).isPrefixOf h then
    let rest := h.drop 7
    let p := splitDollar rest
    p.2 == natDigits (rollHash (p.1 ++ password))
  else false

/-- createVerificationHash (hash-utils, lines 66-77): SHA-256 digest of the
content, then the salted bcrypt transform of that digest, prefixed with the
scheme tag. -/
def createVerificationHash (content salt : List Char) : List Char :=
  "dfv1:".data ++ bcryptHashSync (sha256hex content) salt

/-- verifyContent (hash-utils, lines 86-105): reject tokens without the
scheme tag (the throw is caught and surfaces as false), strip the tag,
recompute the content digest and run the bcrypt comparison. -/
def verifyContent (content token : List Char) : Bool :=
  if ("dfv1:".data).isPrefixOf token then
    bcryptCompareSync (sha256hex content) (token.drop 5)
  else false

/-! ## Canonicalizer (saveReport lines 62-64 / verifyReportFile lines 202-204)

JavaScript's s.replace(/Label:.*$/m, 'Label: PLACEHOLDER') with a
non-global, multiline regex: find the leftmost occurrence of the label
anywhere in the text, and replace from the label through the end of that
line (the end-of-line anchor) with the literal replacement. -/

/-- Drop the rest of the current line, keeping the text from the next
newline on (the end-of-line anchor of the /m flag). -/
def dropToEol : List Char → List Char
  | [] => []
  | c :: cs => if c = '\n' then c :: cs else dropToEol cs

/-- One non-global replace of label-through-end-of-line by the replacement,
at the leftmost occurrence of the label. -/
def replaceLabelToEol (label repl : List Char) : List Char → List Char
  | [] => []
  | c :: cs =>
    if label.isPrefixOf (c :: cs) then repl ++ dropToEol (c :: cs)
    else c :: replaceLabelToEol label repl cs

/-- Index of the leftmost occurrence of a pattern (none when absent). -/
def findOcc (label : List Char) : List Char → Option Nat
  | [] => none
  | c :: cs =>
    if label.isPrefixOf (c :: cs) then some 0
    else (findOcc label cs).map (· + 1)

/-- The report-text normalization applied before output hashing, at save
time and at verification time: the Report ID replace followed by the
Generated replace. -/
def canonicalizeReportText (text : List Char) : List Char :=
  replaceLabelToEol ("Generated:".data) ("Generated: PLACEHOLDER".data)
    (replaceLabelToEol ("Report ID:".data) ("Report ID: PLACEHOLDER".data) text)

/-! ## Data model (src/types/index.ts) -/

/-- One (display name, original path) pair of analyzed_files. -/
structure AnalyzedFileRef where
  file_name : List Char
  file_path : List Char
deriving DecidableEq

/-- The optional timestamp triple of an AnalysisResult. -/
structure FileTimes where
  modified : Option (List Char)
  accessed : Option (List Char)
  created_or_changed : Option (List Char)
deriving DecidableEq

/-- The optional hash triple of an AnalysisResult. -/
structure FileHashes where
  md5 : Option (List Char)
  sha1 : Option (List Char)
  sha256 : Option (List Char)
deriving DecidableEq

/-- AnalysisResult: a per-file outcome of the external Analyzer.  exif_data
is undefined (outer none), null (inner none) or a string map — the
{error: string} marker of the TypeScript union is at runtime simply a map
holding an error key. -/
structure AnalysisResult where
  file_path : List Char
  file_name : List Char
  size_bytes : Option Nat
  file_type : Option (List Char)
  timestamps : Option FileTimes
  hashes : Option FileHashes
  exif_data : Option (Option (List (List Char × List Char)))
  error : Option (List Char)
  report_id : Option (List Char)
deriving DecidableEq

/-- ReportHistoryItem: one persisted history record. -/
structure ReportHistoryItem where
  report_id : List Char
  timestamp : List Char
  analyzed_files : List AnalyzedFileRef
  results : List AnalysisResult
  verification_hash : List Char
deriving DecidableEq

/-- VerificationResult returned by verifyReportFile. -/
structure VerificationResult where
  report_id : List Char
  is_authentic : Bool
  timestamp : List Char
  analyzed_files : List AnalyzedFileRef
deriving DecidableEq

/-! ## JSON (external JavaScript built-ins JSON.stringify / JSON.parse)

JSON.parse returns an arbitrary JSON value — the code casts it without
validation, so the dynamic value type is modelled faithfully. -/

/-- A JavaScript JSON value (numbers restricted to naturals: the only
numbers the program serializes are byte sizes). -/
inductive JsonVal where
  | null : JsonVal
  | bool : Bool → JsonVal
  | num : Nat → JsonVal
  | str : List Char → JsonVal
  | arr : List JsonVal → JsonVal
  | obj : List (List Char × JsonVal) → JsonVal

/-- Is the value an array (what Array.prototype methods require)? -/
def JsonVal.isArr : JsonVal → Bool
  | .arr _ => true
  | _ => false

/-- JSON string escaping of JSON.stringify (the escapes the program's data
can produce). -/
def escapeChar (c : Char) : List Char :=
  if c = '"' then ['\\', '"']
  else if c = '\\' then ['\\', '\\']
  else if c = '\n' then ['\\', 'n']
  else if c = '\t' then ['\\', 't']
  else if c = '\r' then ['\\', 'r']
  else [c]

/-- A JSON string literal with quotes and escaping. -/
def jsonQuote (s : List Char) : List Char :=
  '"' :: s.foldr (fun c acc => escapeChar c ++ acc) ['"']

mutual

/-- Modelled from the spec: JSON.stringify (external JS built-in), compact
form.  (The pretty-printing spacing of JSON.stringify(history, null, 2) is
whitespace only and is not modelled.) -/
def stringifyJson : JsonVal → List Char
  | .null => "null".data
  | .bool true => "true".data
  | .bool false => "false".data
  | .num n => natDigits n
  | .str s => jsonQuote s
  | .arr xs => '[' :: stringifyArr xs ++ [']']
  | .obj fs => '\x7b' :: stringifyObj fs ++ ['\x7d']

/-- Comma-joined serialization of array elements. -/
def stringifyArr : List JsonVal → List Char
  | [] => []
  | [x] => stringifyJson x
  | x :: y :: xs => stringifyJson x ++ ',' :: stringifyArr (y :: xs)

/-- Comma-joined serialization of object fields. -/
def stringifyObj : List (List Char × JsonVal) → List Char
  | [] => []
  | [(k, v)] => jsonQuote k ++ ':' :: stringifyJson v
  | (k, v) :: f :: fs => jsonQuote k ++ ':' :: stringifyJson v ++ ',' :: stringifyObj (f :: fs)

end

/-- Skip JSON whitespace. -/
def skipWs (s : List Char) : List Char :=
  s.dropWhile isWsChar

/-- Decimal digit test. -/
def isDigitChar (c : Char) : Bool :=
  '0' ≤ c && c ≤ '9'

/-- Numeric value of a list of decimal digit characters. -/
def digitsToNat (ds : List Char) : Nat :=
  ds.foldl (fun a c => a * 10 + (c.toNat - 48)) 0

/-- Unescaping for JSON string bodies: the escape sequences stringifyJson
produces (unsupported sequences fail the parse). -/
def unescapeChar (c : Char) : Option Char :=
  if c = '"' then some '"'
  else if c = '\\' then some '\\'
  else if c = '/' then some '/'
  else if c = 'n' then some '\n'
  else if c = 't' then some '\t'
  else if c = 'r' then some '\r'
  else none

/-- Parse the body of a JSON string after the opening quote; returns the
content and the remaining input. -/
def parseStringBody : List Char → Option (List Char × List Char)
  | [] => none
  | '"' :: rest => some ([], rest)
  | '\\' :: e :: rest => do
    let c ← unescapeChar e
    let p ← parseStringBody rest
    pure (c :: p.1, p.2)
  | c :: rest => do
    let p ← parseStringBody rest
    pure (c :: p.1, p.2)

mutual

/-- Modelled from the spec: JSON.parse (external JS built-in), fuel-indexed
recursive-descent parser; none models the SyntaxError throw (in particular
on empty input). -/
def parseValue : Nat → List Char → Option (JsonVal × List Char)
  | 0, _ => none
  | fuel + 1, s =>
    match skipWs s with
    | [] => none
    | 'n' :: 'u' :: 'l' :: 'l' :: rest => some (.null, rest)
    | 't' :: 'r' :: 'u' :: 'e' :: rest => some (.bool true, rest)
    | 'f' :: 'a' :: 'l' :: 's' :: 'e' :: rest => some (.bool false, rest)
    | '"' :: rest => do
      let p ← parseStringBody rest
      pure (.str p.1, p.2)
    | '[' :: rest =>
      (match skipWs rest with
      | ']' :: r2 => some (.arr [], r2)
      | r2 => do
        let p ← parseArrItems fuel r2
        pure (.arr p.1, p.2))
    | '\x7b' :: rest =>
      (match skipWs rest with
      | '\x7d' :: r2 => some (.obj [], r2)
      | r2 => do
        let p ← parseObjItems fuel r2
        pure (.obj p.1, p.2))
    | c :: rest =>
      if isDigitChar c then
        let ds := (c :: rest).takeWhile isDigitChar
        some (.num (digitsToNat ds), (c :: rest).dropWhile isDigitChar)
      else none

/-- Array elements: value, then a comma and more elements or the closing
bracket. -/
def parseArrItems : Nat → List Char → Option (List JsonVal × List Char)
  | 0, _ => none
  | fuel + 1, s => do
    let p ← parseValue fuel s
    match skipWs p.2 with
    | ',' :: r2 => do
      let q ← parseArrItems fuel r2
      pure (p.1 :: q.1, q.2)
    | ']' :: r2 => pure ([p.1], r2)
    | _ => none

/-- Object fields: quoted key, colon, value, then a comma and more fields
or the closing brace. -/
def parseObjItems : Nat → List Char → Option (List (List Char × JsonVal) × List Char)
  | 0, _ => none
  | fuel + 1, s =>
    match skipWs s with
    | '"' :: r => do
      let k ← parseStringBody r
      match skipWs k.2 with
      | ':' :: r2 => do
        let v ← parseValue fuel r2
        match skipWs v.2 with
        | ',' :: r4 => do
          let q ← parseObjItems fuel r4
          pure ((k.1, v.1) :: q.1, q.2)
        | '\x7d' :: r4 => pure ([(k.1, v.1)], r4)
        | _ => none
      | _ => none
    | _ => none

end

/-- JSON.parse of a whole input: one value, nothing but whitespace after
it; none models the SyntaxError throw. -/
def parseJson (s : List Char) : Option JsonVal :=
  match parseValue (s.length + 2) s with
  | some (v, rest) => if skipWs rest = [] then some v else none
  | none => none

/-! ## Encoding the data model to JSON values -/

/-- A present field, or nothing for an undefined (skipped) property. -/
def optField (k : List Char) : Option JsonVal → List (List Char × JsonVal)
  | none => []
  | some v => [(k, v)]

/-- JSON value of the timestamp triple. -/
def timesToJson (t : FileTimes) : JsonVal :=
  .obj (optField ("modified".data) (t.modified.map .str) ++
    optField ("accessed".data) (t.accessed.map .str) ++
    optField ("created_or_changed".data) (t.created_or_changed.map .str))

/-- JSON value of the hash triple. -/
def hashesToJson (h : FileHashes) : JsonVal :=
  .obj (optField ("md5".data) (h.md5.map .str) ++
    optField ("sha1".data) (h.sha1.map .str) ++
    optField ("sha256".data) (h.sha256.map .str))

/-- JSON value of exif_data: null or a string map. -/
def exifToJson : Option (List (List Char × List Char)) → JsonVal
  | none => .null
  | some m => .obj (m.map (fun p => (p.1, .str p.2)))

/-- JSON value of an AnalysisResult, undefined properties skipped, keys in
the stable field order assumed by the spec. -/
def resultToJson (r : AnalysisResult) : JsonVal :=
  .obj ([(("file_path".data : List Char), JsonVal.str r.file_path),
      (("file_name".data : List Char), JsonVal.str r.file_name)] ++
    optField ("size_bytes".data) (r.size_bytes.map .num) ++
    optField ("file_type".data) (r.file_type.map .str) ++
    optField ("timestamps".data) (r.timestamps.map timesToJson) ++
    optField ("hashes".data) (r.hashes.map hashesToJson) ++
    optField ("exif_data".data) (r.exif_data.map exifToJson) ++
    optField ("error".data) (r.error.map .str) ++
    optField ("report_id".data) (r.report_id.map .str))

/-- JSON.stringify(results): the canonical serialized results text hashed
by the data token. -/
def serializeResults (rs : List AnalysisResult) : List Char :=
  stringifyJson (.arr (rs.map resultToJson))

/-- JSON value of a full history record. -/
def itemToJson (it : ReportHistoryItem) : JsonVal :=
  .obj [(("report_id".data : List Char), JsonVal.str it.report_id),
    (("timestamp".data : List Char), JsonVal.str it.timestamp),
    (("analyzed_files".data : List Char), JsonVal.arr (it.analyzed_files.map
      (fun f => .obj [(("file_name".data : List Char), JsonVal.str f.file_name),
        (("file_path".data : List Char), JsonVal.str f.file_path)]))),
    (("results".data : List Char), JsonVal.arr (it.results.map resultToJson)),
    (("verification_hash".data : List Char), JsonVal.str it.verification_hash)]

/-! ## File-system model

The backing history file as the service can observe it: absent (stat fails
or not a file), present but unreadable (fs.readFile throws), or present
with content. -/

/-- Observable state of one file. -/
inductive FsFile where
  | absent : FsFile
  | unreadable : FsFile
  | file : List Char → FsFile
deriving DecidableEq

/-- Fixed store location (constructor, lines 21-24): db/report-history.json
under the db directory. -/
def dbDir : List Char := "db".data

/-- The backing history log path. -/
def historyFilePath : List Char := "db/report-history.json".data

/-! ## ReportHistoryService.getReportHistory / findReportById
(service, lines 112-126 and 134-137)

JSON.parse is unvalidated: the function returns whatever JSON value the
file holds, cast to a list type it need not have.  The dynamic value is
modelled faithfully. -/

/-- getReportHistory (lines 112-126): [] when the file is missing; the
parsed JSON value when it parses; [] when reading or parsing throws (the
catch branch). -/
def getReportHistory : FsFile → JsonVal
  | .absent => .arr []
  | .unreadable => .arr []
  | .file d =>
    match parseJson d with
    | some v => v
    | none => .arr []

/-- Does a JSON item satisfy item.report_id === reportId (strict equality:
true only for an object whose report_id property is that string)? -/
def matchesReportId (it : JsonVal) (rid : List Char) : Bool :=
  match it with
  | .obj fs =>
    match (fs.find? (fun p => p.1 == ("report_id".data : List Char))).map (·.2) with
    | some (JsonVal.str s) => s == rid
    | _ => false
  | _ => false

/-- findReportById (lines 134-137) under the dynamic semantics:
history.find(...) on a non-array value throws a TypeError (error); on an
array it returns the first match or undefined (none). -/
def findReportByIdDyn (histFile : FsFile) (rid : List Char) : Except Unit (Option JsonVal) :=
  match getReportHistory histFile with
  | .arr xs => .ok (xs.find? (fun it => matchesReportId it rid))
  | _ => .error ()

/-- findReportById restricted to a store holding well-typed records (the
shape every file written by saveReport has): linear first-match lookup by
id equality. -/
def findReportById (history : List ReportHistoryItem) (rid : List Char) : Option ReportHistoryItem :=
  history.find? (fun it => it.report_id == rid)

/-! ## ReportHistoryService.saveReport (service, lines 41-105) -/

/-- The record saveReport builds (lines 46-81): stamp the generated id onto
every result (a mutation of the caller's array), hash the serialized
stamped results (data token) and the canonicalized rendered output (output
token), and combine both tokens with their tags.  The rendered parameter
stands for stripAnsiCodes(formatResults(results, false)) — the external
Renderer output with ANSI decoration removed — and nowTs for the creation
timestamp; salt1/salt2 are the two library-generated bcrypt salts. -/
def mkHistoryItem (results : List AnalysisResult)
    (reportId nowTs rendered salt1 salt2 : List Char) : ReportHistoryItem :=
  let results2 := results.map (fun r => { r with report_id := some reportId })
  let dataHash := createVerificationHash (serializeResults results2) salt1
  let outputHash := createVerificationHash (canonicalizeReportText rendered) salt2
  { report_id := reportId,
    timestamp := nowTs,
    analyzed_files := results2.map (fun r =>
      { file_name := r.file_name, file_path := r.file_path }),
    results := results2,
    verification_hash :=
      "data:".data ++ dataHash ++ "||output:".data ++ outputHash }

/-- The try block of saveReport (lines 83-99): load the existing history
(missing file means empty history), push the new record, write the whole
log back in place.  Throws (error) when the read throws, when JSON.parse
throws, when push is applied to a non-array parse result, or when the
write fails (writeOk false). -/
def saveAttempt (item : ReportHistoryItem) (histFile : FsFile) (writeOk : Bool) :
    Except Unit FsFile :=
  match histFile with
  | .absent =>
    if writeOk then .ok (.file (stringifyJson (.arr [itemToJson item])))
    else .error ()
  | .unreadable => .error ()
  | .file d =>
    match parseJson d with
    | some (.arr xs) =>
      if writeOk then .ok (.file (stringifyJson (.arr (xs ++ [itemToJson item]))))
      else .error ()
    | _ => .error ()

/-- What saveReport leaves behind: the returned id, the caller's array
after the forEach mutation, the built record, the new state of the backing
file and whether the catch branch printed its warning. -/
structure SaveOutcome where
  returnedId : List Char
  results_after : List AnalysisResult
  savedItem : ReportHistoryItem
  newHistFile : FsFile
  warned : Bool

/-- saveReport (lines 41-105): build the record, attempt persistence, and
on any persistence failure catch it, warn, and still return the generated
id. -/
def saveReport (results : List AnalysisResult)
    (reportId nowTs rendered salt1 salt2 : List Char)
    (histFile : FsFile) (writeOk : Bool) : SaveOutcome :=
  match saveAttempt (mkHistoryItem results reportId nowTs rendered salt1 salt2)
      histFile writeOk with
  | .ok newFile =>
    { returnedId := reportId,
      results_after := (mkHistoryItem results reportId nowTs rendered salt1 salt2).results,
      savedItem := mkHistoryItem results reportId nowTs rendered salt1 salt2,
      newHistFile := newFile, warned := false }
  | .error _ =>
    { returnedId := reportId,
      results_after := (mkHistoryItem results reportId nowTs rendered salt1 salt2).results,
      savedItem := mkHistoryItem results reportId nowTs rendered salt1 salt2,
      newHistFile := histFile, warned := true }

/-! ## Report-id extraction (verifyReportFile, lines 156-168)

The strict pattern Report ID:\s*(uuid)/i and the lenient fallback
Report\s*ID:?\s*([0-9a-f-]\x7b36\x7d)/i, each matched at the leftmost
position where it succeeds, case-insensitively, capturing the identifier
with its original case. -/

/-- Case-insensitive literal match: the pattern (given lowercase) against
the front of the input; returns the rest. -/
def matchCI (pat : List Char) (s : List Char) : Option (List Char) :=
  match pat, s with
  | [], rest => some rest
  | _ :: _, [] => none
  | p :: ps, c :: cs => if lowerChar c = p then matchCI ps cs else none

/-- Exactly n characters satisfying a class; returns them and the rest. -/
def takeClass (cls : Char → Bool) : Nat → List Char → Option (List Char × List Char)
  | 0, s => some ([], s)
  | _ + 1, [] => none
  | n + 1, c :: cs =>
    if cls c then do
      let p ← takeClass cls n cs
      pure (c :: p.1, p.2)
    else none

/-- One literal dash. -/
def expectDash : List Char → Option (List Char)
  | '-' :: r => some r
  | _ => none

/-- The canonical 8-4-4-4-12 identifier shape of the strict pattern;
returns the 36 captured characters and the rest. -/
def matchUuid (s : List Char) : Option (List Char × List Char) := do
  let a ← takeClass isHexDigit 8 s
  let r ← expectDash a.2
  let b ← takeClass isHexDigit 4 r
  let r ← expectDash b.2
  let c ← takeClass isHexDigit 4 r
  let r ← expectDash c.2
  let d ← takeClass isHexDigit 4 r
  let r ← expectDash d.2
  let e ← takeClass isHexDigit 12 r
  pure (a.1 ++ '-' :: b.1 ++ '-' :: c.1 ++ '-' :: d.1 ++ '-' :: e.1, e.2)

/-- The strict pattern at one position: the label, optional whitespace, a
canonical identifier. -/
def tryStrictAt (s : List Char) : Option (List Char) := do
  let r ← matchCI ("report id:".data) s
  let p ← matchUuid (r.dropWhile isWsChar)
  pure p.1

/-- Leftmost strict match in the whole text. -/
def scanStrict : List Char → Option (List Char)
  | [] => none
  | c :: cs =>
    match tryStrictAt (c :: cs) with
    | some u => some u
    | none => scanStrict cs

/-- [0-9a-f-] with /i. -/
def isHexDash (c : Char) : Bool :=
  isHexDigit c || c = '-'

/-- The lenient pattern at one position: Report, whitespace, ID, optional
colon, whitespace, 36 identifier-alphabet characters. -/
def tryLenientAt (s : List Char) : Option (List Char) := do
  let r ← matchCI ("report".data) s
  let r2 ← matchCI ("id".data) (r.dropWhile isWsChar)
  let r3 :=
    match r2 with
    | ':' :: t => t
    | _ => r2
  let p ← takeClass isHexDash 36 (r3.dropWhile isWsChar)
  pure p.1

/-- Leftmost lenient match in the whole text. -/
def scanLenient : List Char → Option (List Char)
  | [] => none
  | c :: cs =>
    match tryLenientAt (c :: cs) with
    | some u => some u
    | none => scanLenient cs

/-- Lines 156-168: strict pattern first, lenient fallback second; none
models the throw (no report id found), caught into a null return. -/
def extractReportId (fileData : List Char) : Option (List Char) :=
  match scanStrict fileData with
  | some u => some u
  | none => scanLenient fileData

/-! ## verifyReportFile (service, lines 145-222) -/

/-- String.prototype.split('||'): non-overlapping left-to-right split on
the double-bar separator. -/
def splitDbar : List Char → List (List Char)
  | [] => [[]]
  | '|' :: '|' :: rest => [] :: splitDbar rest
  | c :: cs =>
    match splitDbar cs with
    | [] => [[c]]
    | p :: ps => (c :: p) :: ps

/-- The combined-shape test of line 182: exactly two parts around the
separator, tagged data: and output:. -/
def isDualShape (token : List Char) : Bool :=
  match splitDbar token with
  | [p0, p1] => ("data:".data).isPrefixOf p0 && ("output:".data).isPrefixOf p1
  | _ => false

/-- verifyReportFile (lines 145-222) on the already-read, ANSI-stripped
artifact text and a well-typed store (the shape of every store the service
itself writes): extract the id (none when absent), look the record up
(none when missing), then verify — legacy single-token branch when the
stored token does not have the combined shape, dual-token branch
otherwise; the dual verdict is the conjunction of the data-token and
output-token comparisons. -/
def verifyReportFile (fileData : List Char) (history : List ReportHistoryItem) :
    Option VerificationResult :=
  match extractReportId fileData with
  | none => none
  | some rid =>
    match findReportById history rid with
    | none => none
    | some item =>
      match splitDbar item.verification_hash with
      | [p0, p1] =>
        if ("data:".data).isPrefixOf p0 && ("output:".data).isPrefixOf p1 then
          some { report_id := rid,
                 is_authentic :=
                   verifyContent (serializeResults item.results) (p0.drop 5) &&
                   verifyContent (canonicalizeReportText fileData) (p1.drop 7),
                 timestamp := item.timestamp,
                 analyzed_files := item.analyzed_files }
        else
          some { report_id := rid,
                 is_authentic := verifyContent (serializeResults item.results) item.verification_hash,
                 timestamp := item.timestamp,
                 analyzed_files := item.analyzed_files }
      | _ =>
        some { report_id := rid,
               is_authentic := verifyContent (serializeResults item.results) item.verification_hash,
               timestamp := item.timestamp,
               analyzed_files := item.analyzed_files }

/-! ## File-system trace of a save (for the crash-safety discipline)

The sequence of file-system operations saveReport issues, and the contents
the destination can hold if execution stops mid-write: fs.writeFile
truncates the destination and writes the new bytes in place, so every
prefix of the written data is a reachable intermediate content. -/

/-- One file-system operation. -/
inductive FsOp where
  | ensureDir : List Char → FsOp
  | statPath : List Char → FsOp
  | readPath : List Char → FsOp
  | writePath : List Char → List Char → FsOp
  | renamePath : List Char → List Char → FsOp
deriving DecidableEq

/-- The operations saveReport issues (lines 43, 87-97): ensure the db
directory, stat the log, read it when present, and — when the log loads as
an array or is missing — write the whole new log back to the same path.
No temporary file and no rename. -/
def saveReportTrace (item : ReportHistoryItem) (histFile : FsFile) : List FsOp :=
  FsOp.ensureDir dbDir :: FsOp.statPath historyFilePath ::
    match histFile with
    | .absent => [FsOp.writePath historyFilePath (stringifyJson (.arr [itemToJson item]))]
    | .unreadable => [FsOp.readPath historyFilePath]
    | .file d =>
      FsOp.readPath historyFilePath ::
        match parseJson d with
        | some (.arr xs) =>
          [FsOp.writePath historyFilePath (stringifyJson (.arr (xs ++ [itemToJson item])))]
        | _ => []

/-- The data of every write directed at the destination log path. -/
def writesToDest (t : List FsOp) : List (List Char) :=
  t.filterMap (fun op =>
    match op with
    | FsOp.writePath p d => if p = historyFilePath then some d else none
    | _ => none)

/-- The path of every write in a trace. -/
def writeTargets (t : List FsOp) : List (List Char) :=
  t.filterMap (fun op =>
    match op with
    | FsOp.writePath p _ => some p
    | _ => none)

/-- The renames in a trace. -/
def renamesIn (t : List FsOp) : List FsOp :=
  t.filter (fun op =>
    match op with
    | FsOp.renamePath _ _ => true
    | _ => false)

/-- Every prefix of the written data: the reachable contents of an
in-place, truncating write interrupted mid-way. -/
def writeCrashContents (d : List Char) : List (List Char) :=
  (List.range (d.length + 1)).map (fun k => d.take k)

/-- The contents the destination file can hold at some point of the trace:
its initial content, or any prefix of any write directed at it. -/
def destStates (init : List Char) (t : List FsOp) : List (List Char) :=
  init :: (writesToDest t).foldr (fun d acc => writeCrashContents d ++ acc) []

/-! ## Derived definitions used by the statements -/

/-- Does loading the history fail (missing file, unreadable file, or
JSON.parse throwing)?  These are the states the catch branches turn into
an empty history. -/
def loadFails : FsFile → Bool
  | .absent => true
  | .unreadable => true
  | .file d => (parseJson d).isNone

/-- The take/drop specification of one canonicalization replace: the text
before the first occurrence of the label is kept, the label and the rest
of its line are replaced by the replacement, the text from the following
newline on is kept; when the label is absent the text is unchanged. -/
def replaceAtFirstOcc (label repl text : List Char) : List Char :=
  match findOcc label text with
  | none => text
  | some i => text.take i ++ repl ++ dropToEol (text.drop i)

/-! ## Concrete inputs for witnesses and counterexamples -/

/-- A canonical-shape report identifier. -/
def wRid : List Char := "aaaaaaaa-aaaa-aaaa-aaaa-aaaaaaaaaaaa".data

/-- An artifact text with identifier and timestamp lines and a body. -/
def wFileData : List Char :=
  "Report ID: aaaaaaaa-aaaa-aaaa-aaaa-aaaaaaaaaaaa\nGenerated: now\nbody\n".data

/-- One analysis result, already stamped with the identifier. -/
def wRes : AnalysisResult :=
  { file_path := "/tmp/a.jpg".data, file_name := "a.jpg".data,
    size_bytes := some 3, file_type := some ("image/jpeg".data),
    timestamps := none, hashes := none, exif_data := none, error := none,
    report_id := some wRid }

/-- The stored data token of the dual-token witness record. -/
def wDataTok : List Char := createVerificationHash (serializeResults [wRes]) ("s1".data)

/-- The stored output token of the dual-token witness record. -/
def wOutTok : List Char := createVerificationHash (canonicalizeReportText wFileData) ("s2".data)

/-- A dual-token history record matching the witness artifact. -/
def wItem : ReportHistoryItem :=
  { report_id := wRid, timestamp := "2024-01-01".data,
    analyzed_files := [{ file_name := "a.jpg".data, file_path := "/tmp/a.jpg".data }],
    results := [wRes],
    verification_hash := "data:".data ++ wDataTok ++ "||output:".data ++ wOutTok }

/-- A legacy history record: its token is a bare dfv1 token over its own
serialized results, with no combined shape. -/
def wLegacyItem : ReportHistoryItem :=
  { report_id := wRid, timestamp := "2023-01-01".data,
    analyzed_files := [{ file_name := "a.jpg".data, file_path := "/tmp/a.jpg".data }],
    results := [wRes],
    verification_hash := createVerificationHash (serializeResults [wRes]) ("s3".data) }

/-- A record whose stored token has an unexpected shape: neither the
combined shape nor the scheme tag. -/
def wBadTokenItem : ReportHistoryItem :=
  { report_id := wRid, timestamp := "2022-01-01".data,
    analyzed_files := [{ file_name := "a.jpg".data, file_path := "/tmp/a.jpg".data }],
    results := [wRes],
    verification_hash := "garbage".data }

/-- The record of the crash-trace counterexample. -/
def c3Item : ReportHistoryItem :=
  mkHistoryItem [] ("i3".data) ("t3".data) ("r3".data) ("sa".data) ("sb".data)

/-- The full new log the crash-trace counterexample would write. -/
def c3NewLog : List Char := stringifyJson (.arr [itemToJson c3Item])

/-- A save against an empty (zero-byte) backing file. -/
def c7Out : SaveOutcome :=
  saveReport [] ("i7".data) ("t7".data) ("r7".data) ("sa".data) ("sb".data)
    (FsFile.file []) true

/-- An analysis result not yet stamped with any report id. -/
def c9Res : AnalysisResult :=
  { file_path := "/t/f".data, file_name := "f".data, size_bytes := none,
    file_type := none, timestamps := none, hashes := none, exif_data := none,
    error := none, report_id := none }

/-- The canonicalization counterexample text: no identifier-introducing
line, but an identifier-looking substring inside a body line. -/
def c6Text : List Char := "Size: 10\n| note Report ID: abc |\n".data

/-! ## Helper lemmas -/

/-- A list is a Boolean prefix of itself followed by anything. -/
theorem isPrefixOf_self_append (p t : List Char) : p.isPrefixOf (p ++ t) = true := by
  induction p with
  | nil => simp [List.isPrefixOf]
  | cons a as ih => simp [List.isPrefixOf, ih]

/-- splitDollar recovers the two sides around an explicit separator when
the left side is dollar-free. -/
theorem splitDollar_append (s d : List Char) (h : '$' ∉ s) :
    splitDollar (s ++ '$' :: d) = (s, d) := by
  induction s with
  | nil => simp [splitDollar]
  | cons a as ih =>
    have ha : a ≠ '$' := by
      intro e
      exact h (e ▸ List.mem_cons_self a as)
    have hs : '$' ∉ as := fun m => h (List.mem_cons_of_mem a m)
    simp [splitDollar, ha, ih hs]

/-- Round trip of the integrity hasher: a token created over some content
verifies against that content, for any dollar-free salt (bcrypt salts are
drawn from a dollar-free alphabet). -/
theorem verify_roundtrip_core (c salt : List Char) (hs : '$' ∉ salt) :
    verifyContent c (createVerificationHash c salt) = true := by
  unfold verifyContent createVerificationHash bcryptHashSync bcryptCompareSync
  simp [splitDollar_append _ _ hs]

/-- The legacy branch of verifyReportFile: when the stored token does not
have the combined shape, the outcome verifies the whole stored token
against the serialized stored results. -/
theorem verify_legacy_core (fileData : List Char) (history : List ReportHistoryItem)
    (rid : List Char) (item : ReportHistoryItem)
    (hx : extractReportId fileData = some rid)
    (hf : findReportById history rid = some item)
    (hl : isDualShape item.verification_hash = false) :
    verifyReportFile fileData history =
      some { report_id := rid,
             is_authentic := verifyContent (serializeResults item.results) item.verification_hash,
             timestamp := item.timestamp,
             analyzed_files := item.analyzed_files } := by
  unfold verifyReportFile
  rw [hx]
  simp only []
  rw [hf]
  simp only []
  unfold isDualShape at hl
  cases e : splitDbar item.verification_hash with
  | nil => simp [e]
  | cons p0 rest =>
    cases rest with
    | nil => simp [e]
    | cons p1 rest2 =>
      cases rest2 with
      | nil =>
        cases hc : (("data:".data).isPrefixOf p0 && ("output:".data).isPrefixOf p1) with
        | false => simp [e, hc]
        | true =>
          exfalso
          rw [e] at hl
          simp [hc] at hl
      | cons p2 rest3 => simp [e]

/-- The dual branch of verifyReportFile: when the stored token splits into
its two tagged parts, the outcome's verdict is the conjunction of the
data-token and output-token comparisons. -/
theorem verify_dual_core (fileData : List Char) (history : List ReportHistoryItem)
    (rid : List Char) (item : ReportHistoryItem) (p0 p1 : List Char)
    (hx : extractReportId fileData = some rid)
    (hf : findReportById history rid = some item)
    (hs : splitDbar item.verification_hash = [p0, p1])
    (h0 : ("data:".data).isPrefixOf p0 = true)
    (h1 : ("output:".data).isPrefixOf p1 = true) :
    verifyReportFile fileData history =
      some { report_id := rid,
             is_authentic :=
               verifyContent (serializeResults item.results) (p0.drop 5) &&
               verifyContent (canonicalizeReportText fileData) (p1.drop 7),
             timestamp := item.timestamp,
             analyzed_files := item.analyzed_files } := by
  unfold verifyReportFile
  rw [hx]
  simp only []
  rw [hf]
  simp only []
  rw [hs]
  simp [h0, h1]

/-- The recursive replace agrees with its take/drop specification at the
first occurrence index. -/
theorem replaceLabelToEol_spec (label repl text : List Char) :
    replaceLabelToEol label repl text = replaceAtFirstOcc label repl text := by
  induction text with
  | nil => simp [replaceLabelToEol, replaceAtFirstOcc, findOcc]
  | cons c cs ih =>
    by_cases h : label.isPrefixOf (c :: cs) = true
    · simp [replaceLabelToEol, replaceAtFirstOcc, findOcc, h]
    · rw [show replaceLabelToEol label repl (c :: cs) =
          c :: replaceLabelToEol label repl cs by simp [replaceLabelToEol, h]]
      rw [ih]
      unfold replaceAtFirstOcc
      rw [show findOcc label (c :: cs) = (findOcc label cs).map (· + 1) by
        simp [findOcc, h]]
      cases e : findOcc label cs with
      | none => simp [e]
      | some i => simp [e]

/-! ## Claims -/

/-- C1: for every content string, verifying the token produced for it
succeeds: the token is the scheme-tagged salted transform of the SHA-256
digest, and verification strips the tag, recomputes the digest and runs
the bcrypt comparison.  The salt is the library-generated bcrypt salt,
drawn from a dollar-free alphabet. -/
theorem c1_verify_token_roundtrip (c salt : List Char) (hs : '$' ∉ salt) :
    verifyContent c (createVerificationHash c salt) = true :=
  verify_roundtrip_core c salt hs

/-- C1 witness: the round trip at a concrete content and salt. -/
theorem c1_verify_token_roundtrip_witness :
    '$' ∉ ("ab".data : List Char) ∧
    verifyContent ("hello".data) (createVerificationHash ("hello".data) ("ab".data)) = true :=
  ⟨by decide, c1_verify_token_roundtrip ("hello".data) ("ab".data) (by decide)⟩

/-- C2: in the dual-token branch (stored token of the combined shape), the
verdict equals the conjunction of the data-token comparison (recomputed
over the serialized stored results) and the output-token comparison
(recomputed over the canonicalized supplied artifact); if either
comparison alone is false, the verdict is false. -/
theorem c2_dual_token_verdict (fileData : List Char) (history : List ReportHistoryItem)
    (rid : List Char) (item : ReportHistoryItem) (p0 p1 : List Char)
    (hx : extractReportId fileData = some rid)
    (hf : findReportById history rid = some item)
    (hsp : splitDbar item.verification_hash = [p0, p1])
    (h0 : ("data:".data).isPrefixOf p0 = true)
    (h1 : ("output:".data).isPrefixOf p1 = true) :
    verifyReportFile fileData history =
      some { report_id := rid,
             is_authentic :=
               verifyContent (serializeResults item.results) (p0.drop 5) &&
               verifyContent (canonicalizeReportText fileData) (p1.drop 7),
             timestamp := item.timestamp,
             analyzed_files := item.analyzed_files } ∧
    (verifyContent (serializeResults item.results) (p0.drop 5) = false ∨
        verifyContent (canonicalizeReportText fileData) (p1.drop 7) = false →
      (verifyReportFile fileData history).map VerificationResult.is_authentic = some false) := by
  have h := verify_dual_core fileData history rid item p0 p1 hx hf hsp h0 h1
  refine ⟨h, ?_⟩
  intro hm
  rw [h]
  rcases hm with hm | hm <;> simp [hm]

/-- C2 witness: a dual-token record over a concrete artifact; both stored
tokens were created over the matching contents, so the hypotheses hold and
the equality is witnessed. -/
theorem c2_dual_token_verdict_witness :
    extractReportId wFileData = some wRid ∧
    findReportById [wItem] wRid = some wItem ∧
    splitDbar wItem.verification_hash =
      [("data:".data) ++ wDataTok, ("output:".data) ++ wOutTok] ∧
    ("data:".data).isPrefixOf (("data:".data) ++ wDataTok) = true ∧
    ("output:".data).isPrefixOf (("output:".data) ++ wOutTok) = true ∧
    verifyReportFile wFileData [wItem] =
      some { report_id := wRid,
             is_authentic :=
               verifyContent (serializeResults wItem.results) ((("data:".data) ++ wDataTok).drop 5) &&
               verifyContent (canonicalizeReportText wFileData) ((("output:".data) ++ wOutTok).drop 7),
             timestamp := wItem.timestamp,
             analyzed_files := wItem.analyzed_files } :=
  ⟨by decide, by decide, by decide, by decide, by decide,
    (c2_dual_token_verdict wFileData [wItem] wRid wItem (("data:".data) ++ wDataTok)
      (("output:".data) ++ wOutTok) (by decide) (by decide) (by decide) (by decide) (by decide)).1⟩

/-- C4: a stored token without the combined shape is verified alone
against the serialized stored results, and that comparison is the
verdict; in particular a legacy record whose token was created over its
own serialized results verifies true, no output token required. -/
theorem c4_legacy_single_token (fileData : List Char) (history : List ReportHistoryItem)
    (rid : List Char) (item : ReportHistoryItem)
    (hx : extractReportId fileData = some rid)
    (hf : findReportById history rid = some item)
    (hl : isDualShape item.verification_hash = false) :
    verifyReportFile fileData history =
      some { report_id := rid,
             is_authentic := verifyContent (serializeResults item.results) item.verification_hash,
             timestamp := item.timestamp,
             analyzed_files := item.analyzed_files } ∧
    (∀ salt, '$' ∉ salt →
      item.verification_hash = createVerificationHash (serializeResults item.results) salt →
      (verifyReportFile fileData history).map VerificationResult.is_authentic = some true) := by
  have h := verify_legacy_core fileData history rid item hx hf hl
  refine ⟨h, ?_⟩
  intro salt hsalt heq
  rw [h]
  simp [heq, verify_roundtrip_core (serializeResults item.results) salt hsalt]

/-- C4 witness: a concrete legacy record with a correct single token
verifies true. -/
theorem c4_legacy_single_token_witness :
    extractReportId wFileData = some wRid ∧
    findReportById [wLegacyItem] wRid = some wLegacyItem ∧
    isDualShape wLegacyItem.verification_hash = false ∧
    '$' ∉ ("s3".data : List Char) ∧
    wLegacyItem.verification_hash =
      createVerificationHash (serializeResults wLegacyItem.results) ("s3".data) ∧
    (verifyReportFile wFileData [wLegacyItem]).map VerificationResult.is_authentic = some true :=
  ⟨by decide, by decide, by decide, by decide, by decide,
    (c4_legacy_single_token wFileData [wLegacyItem] wRid wLegacyItem
      (by decide) (by decide) (by decide)).2 ("s3".data) (by decide) (by decide)⟩

/-- C5 counterexample: a stored token of unexpected shape (neither the
combined shape nor the scheme tag) does not produce a distinct
cannot-verify failure — the verifier returns an ordinary outcome with an
authenticity verdict of false, not null. -/
theorem c5_counterexample :
    verifyReportFile wFileData [wBadTokenItem] =
      some { report_id := wRid, is_authentic := false,
             timestamp := wBadTokenItem.timestamp,
             analyzed_files := wBadTokenItem.analyzed_files } ∧
    verifyReportFile wFileData [wBadTokenItem] ≠ none := by
  refine ⟨by decide, ?_⟩
  intro h
  rw [show verifyReportFile wFileData [wBadTokenItem] =
      some { report_id := wRid, is_authentic := false,
             timestamp := wBadTokenItem.timestamp,
             analyzed_files := wBadTokenItem.analyzed_files } from by decide] at h
  exact Option.noConfusion h

/-- C5 (amended): a stored token of unexpected shape falls into the
legacy branch, where the missing scheme tag makes the single-token
comparison false, so the verifier reports an authenticity verdict of
false rather than a distinct MalformedToken failure; null is reserved for
extraction, lookup and read failures. -/
theorem c5_malformed_token_false_verdict (fileData : List Char)
    (history : List ReportHistoryItem) (rid : List Char) (item : ReportHistoryItem)
    (hx : extractReportId fileData = some rid)
    (hf : findReportById history rid = some item)
    (hl : isDualShape item.verification_hash = false)
    (hp : ("dfv1:".data).isPrefixOf item.verification_hash = false) :
    verifyReportFile fileData history =
      some { report_id := rid, is_authentic := false,
             timestamp := item.timestamp, analyzed_files := item.analyzed_files } := by
  have h := verify_legacy_core fileData history rid item hx hf hl
  rw [h]
  have hv : verifyContent (serializeResults item.results) item.verification_hash = false := by
    unfold verifyContent
    simp only [hp]
    simp
  rw [hv]

/-- C5 witness: the amended behavior at the concrete malformed-token
record. -/
theorem c5_malformed_token_false_verdict_witness :
    extractReportId wFileData = some wRid ∧
    findReportById [wBadTokenItem] wRid = some wBadTokenItem ∧
    isDualShape wBadTokenItem.verification_hash = false ∧
    ("dfv1:".data).isPrefixOf wBadTokenItem.verification_hash = false ∧
    verifyReportFile wFileData [wBadTokenItem] =
      some { report_id := wRid, is_authentic := false,
             timestamp := wBadTokenItem.timestamp,
             analyzed_files := wBadTokenItem.analyzed_files } :=
  ⟨by decide, by decide, by decide, by decide,
    c5_malformed_token_false_verdict wFileData [wBadTokenItem] wRid wBadTokenItem
      (by decide) (by decide) (by decide) (by decide)⟩

/-- C6 counterexample: a text with no identifier-introducing line but with
an identifier-looking substring inside a body line is changed by
canonicalization — the replace fires at the first occurrence of the label
anywhere, not on a whole introducing line, so the body content from the
label to the end of that line is lost. -/
theorem c6_counterexample :
    canonicalizeReportText c6Text ≠ c6Text ∧
    canonicalizeReportText c6Text = ("Size: 10\n| note Report ID: PLACEHOLDER\n".data) := by
  constructor
  · decide
  · decide

/-- C6 (amended): each canonicalization replace fires at the first
occurrence of its label anywhere in the text (whether or not that
occurrence starts a line), replacing from the label through the end of
that line and leaving everything else — the text before the occurrence
and the text from the following newline on — unchanged; when a label is
absent the text is unchanged for that replace.  Formally, the Report ID
replace followed by the Generated replace each equal their
first-occurrence take/drop specification. -/
theorem c6_canonicalize_first_occurrence (text : List Char) :
    canonicalizeReportText text =
      replaceAtFirstOcc ("Generated:".data) ("Generated: PLACEHOLDER".data)
        (replaceAtFirstOcc ("Report ID:".data) ("Report ID: PLACEHOLDER".data) text) := by
  unfold canonicalizeReportText
  rw [replaceLabelToEol_spec, replaceLabelToEol_spec]

/-- C3 counterexample: a save onto an existing two-byte log issues an
in-place truncating write of the new log to the destination path with no
rename, and the one-byte prefix of the new log is a reachable mid-write
content of the destination that is neither the complete old log nor the
complete new log. -/
theorem c3_counterexample :
    ("[".data : List Char) ∈
      destStates ("[]".data) (saveReportTrace c3Item (FsFile.file ("[]".data))) ∧
    ("[".data : List Char) ≠ ("[]".data : List Char) ∧
    ("[".data : List Char) ≠ c3NewLog ∧
    renamesIn (saveReportTrace c3Item (FsFile.file ("[]".data))) = [] := by
  refine ⟨by decide, by decide, by decide, by decide⟩

/-- C3 (amended): every save rewrites the whole log in place — its trace
contains no rename and every write it issues targets the destination log
path directly, a single whole-log write when the log is missing or loads
as an array and no write otherwise; an interruption mid-write can
therefore leave a bare prefix of the new log. -/
theorem c3_save_in_place_rewrite (item : ReportHistoryItem) (histFile : FsFile) :
    renamesIn (saveReportTrace item histFile) = [] ∧
    (writeTargets (saveReportTrace item histFile)).all (fun p => p == historyFilePath) = true ∧
    (writesToDest (saveReportTrace item histFile) = [] ∨
      ∃ d, writesToDest (saveReportTrace item histFile) = [d]) := by
  cases histFile with
  | absent =>
    refine ⟨rfl, ?_, Or.inr ⟨_, rfl⟩⟩
    simp [saveReportTrace, writeTargets, historyFilePath]
  | unreadable => exact ⟨rfl, rfl, Or.inl rfl⟩
  | file d =>
    cases e : parseJson d with
    | none =>
      refine ⟨?_, ?_, ?_⟩ <;>
        simp [saveReportTrace, renamesIn, writeTargets, writesToDest, e]
    | some v =>
      cases v with
      | arr xs =>
        refine ⟨?_, ?_, ?_⟩ <;>
          simp [saveReportTrace, renamesIn, writeTargets, writesToDest, e, historyFilePath]
      | null =>
        refine ⟨?_, ?_, ?_⟩ <;>
          simp [saveReportTrace, renamesIn, writeTargets, writesToDest, e]
      | bool b =>
        refine ⟨?_, ?_, ?_⟩ <;>
          simp [saveReportTrace, renamesIn, writeTargets, writesToDest, e]
      | num n =>
        refine ⟨?_, ?_, ?_⟩ <;>
          simp [saveReportTrace, renamesIn, writeTargets, writesToDest, e]
      | str s =>
        refine ⟨?_, ?_, ?_⟩ <;>
          simp [saveReportTrace, renamesIn, writeTargets, writesToDest, e]
      | obj fs =>
        refine ⟨?_, ?_, ?_⟩ <;>
          simp [saveReportTrace, renamesIn, writeTargets, writesToDest, e]

/-- C7 counterexample: against an EMPTY (zero-byte) backing file, save
does not persist the new record as the sole entry — JSON.parse of the
empty content throws, the catch branch warns, and the file is left
unchanged instead of holding the one-record log. -/
theorem c7_counterexample :
    c7Out.warned = true ∧
    c7Out.newHistFile = FsFile.file [] ∧
    FsFile.file ([] : List Char) ≠
      FsFile.file (stringifyJson (JsonVal.arr [itemToJson c7Out.savedItem])) := by
  refine ⟨rfl, rfl, by decide⟩

/-- C7 (amended): a MISSING backing file is treated as empty history —
save persists the new record as the sole entry without warning, listing
yields the empty sequence, and the save trace begins by creating the
storage directory; an EMPTY backing file also lists as empty, but save
against it returns the generated id with a warning and leaves the file
unchanged, because parsing the empty content fails. -/
theorem c7_missing_vs_empty (results : List AnalysisResult)
    (rid ts rendered s1 s2 : List Char) :
    (saveReport results rid ts rendered s1 s2 FsFile.absent true).returnedId = rid ∧
    (saveReport results rid ts rendered s1 s2 FsFile.absent true).warned = false ∧
    (saveReport results rid ts rendered s1 s2 FsFile.absent true).newHistFile =
      FsFile.file (stringifyJson (JsonVal.arr
        [itemToJson (saveReport results rid ts rendered s1 s2 FsFile.absent true).savedItem])) ∧
    getReportHistory FsFile.absent = JsonVal.arr [] ∧
    getReportHistory (FsFile.file []) = JsonVal.arr [] ∧
    (saveReport results rid ts rendered s1 s2 (FsFile.file []) true).returnedId = rid ∧
    (saveReport results rid ts rendered s1 s2 (FsFile.file []) true).warned = true ∧
    (saveReport results rid ts rendered s1 s2 (FsFile.file []) true).newHistFile =
      FsFile.file [] ∧
    (saveReportTrace (saveReport results rid ts rendered s1 s2 FsFile.absent true).savedItem
      FsFile.absent).head? = some (FsOp.ensureDir dbDir) :=
  ⟨rfl, rfl, rfl, rfl, rfl, rfl, rfl, rfl, rfl⟩

/-- C8: when persistence fails during a save — the backing log cannot be
read, or the write fails — the save still returns the generated id and
surfaces the failure only as the non-fatal warning of the catch branch. -/
theorem c8_save_best_effort (results : List AnalysisResult)
    (rid ts rendered s1 s2 : List Char) (histFile : FsFile) (writeOk : Bool)
    (h : histFile = FsFile.unreadable ∨ writeOk = false) :
    (saveReport results rid ts rendered s1 s2 histFile writeOk).returnedId = rid ∧
    (saveReport results rid ts rendered s1 s2 histFile writeOk).warned = true := by
  rcases h with h | h
  · subst h; exact ⟨rfl, rfl⟩
  · subst h
    cases histFile with
    | absent => exact ⟨rfl, rfl⟩
    | unreadable => exact ⟨rfl, rfl⟩
    | file d =>
      cases e : parseJson d with
      | none => simp [saveReport, saveAttempt, e]
      | some v => cases v <;> simp [saveReport, saveAttempt, e]

/-- C8 witness: an unreadable backing log at concrete inputs. -/
theorem c8_save_best_effort_witness :
    (FsFile.unreadable = FsFile.unreadable ∨ true = false) ∧
    (saveReport [] ("i8".data) ("t8".data) ("r8".data) ("sa".data) ("sb".data)
      FsFile.unreadable true).returnedId = ("i8".data : List Char) ∧
    (saveReport [] ("i8".data) ("t8".data) ("r8".data) ("sa".data) ("sb".data)
      FsFile.unreadable true).warned = true :=
  ⟨Or.inl rfl,
    (c8_save_best_effort [] ("i8".data) ("t8".data) ("r8".data) ("sa".data) ("sb".data)
      FsFile.unreadable true (Or.inl rfl)).1,
    (c8_save_best_effort [] ("i8".data) ("t8".data) ("r8".data) ("sa".data) ("sb".data)
      FsFile.unreadable true (Or.inl rfl)).2⟩

/-- C9 counterexample: saving a result whose report_id is unset leaves the
caller's sequence changed — the forEach of lines 49-51 stamps the
generated id into the caller's own elements, so the element after the save
differs from the element before it. -/
theorem c9_counterexample :
    (saveReport [c9Res] ("i9".data) ("t9".data) ("r9".data) ("sa".data) ("sb".data)
      FsFile.absent true).results_after ≠ [c9Res] := by
  decide

/-- C9 (amended): save mutates the caller's results exactly by stamping
the generated id: element for element, every field other than report_id
is unchanged and report_id becomes the returned id. -/
theorem c9_save_stamps_report_id (results : List AnalysisResult)
    (rid ts rendered s1 s2 : List Char) (histFile : FsFile) (writeOk : Bool) :
    List.Forall₂ (fun r r' =>
        r'.file_path = r.file_path ∧ r'.file_name = r.file_name ∧
        r'.size_bytes = r.size_bytes ∧ r'.file_type = r.file_type ∧
        r'.timestamps = r.timestamps ∧ r'.hashes = r.hashes ∧
        r'.exif_data = r.exif_data ∧ r'.error = r.error ∧
        r'.report_id = some rid)
      results
      (saveReport results rid ts rendered s1 s2 histFile writeOk).results_after := by
  have h : (saveReport results rid ts rendered s1 s2 histFile writeOk).results_after =
      results.map (fun r => { r with report_id := some rid }) := by
    have hres : (mkHistoryItem results rid ts rendered s1 s2).results =
        results.map (fun r => { r with report_id := some rid }) := rfl
    unfold saveReport
    cases saveAttempt (mkHistoryItem results rid ts rendered s1 s2) histFile writeOk <;>
      simpa using hres
  rw [h]
  clear h
  induction results with
  | nil => exact List.Forall₂.nil
  | cons r rs ih =>
    exact List.Forall₂.cons ⟨rfl, rfl, rfl, rfl, rfl, rfl, rfl, rfl, rfl⟩ ih

/-- C10 counterexample: a backing file holding the valid JSON text 5 is
not treated as an empty or corrupted store — getReportHistory returns the
non-sequence value itself, and the id lookup throws a TypeError instead of
reporting not-found. -/
theorem c10_counterexample :
    getReportHistory (FsFile.file ("5".data)) = JsonVal.num 5 ∧
    (getReportHistory (FsFile.file ("5".data))).isArr = false ∧
    findReportByIdDyn (FsFile.file ("5".data)) ("x".data) = Except.error () :=
  ⟨rfl, rfl, rfl⟩

/-- C10 (amended): whenever loading the history fails — missing file,
unreadable file, or JSON.parse throwing — getReportHistory returns the
empty sequence and the id lookup reports not-found without error, so such
corrupted stores are indistinguishable from an empty one; only a file
whose content is valid JSON of non-array type escapes this (see the
counterexample). -/
theorem c10_corrupted_store_reads_empty (f : FsFile) (rid : List Char)
    (h : loadFails f = true) :
    getReportHistory f = JsonVal.arr [] ∧
    findReportByIdDyn f rid = Except.ok none := by
  cases f with
  | absent => exact ⟨rfl, rfl⟩
  | unreadable => exact ⟨rfl, rfl⟩
  | file d =>
    have e : parseJson d = none := by
      unfold loadFails at h
      exact Option.isNone_iff_eq_none.mp h
    constructor
    · simp [getReportHistory, e]
    · simp [findReportByIdDyn, getReportHistory, e]

/-- C10 witness: a concrete malformed backing file. -/
theorem c10_corrupted_store_reads_empty_witness :
    loadFails (FsFile.file ("nope".data)) = true ∧
    getReportHistory (FsFile.file ("nope".data)) = JsonVal.arr [] ∧
    findReportByIdDyn (FsFile.file ("nope".data)) ("x".data) = Except.ok none :=
  ⟨by decide,
    (c10_corrupted_store_reads_empty (FsFile.file ("nope".data)) ("x".data) (by decide)).1,
    (c10_corrupted_store_reads_empty (FsFile.file ("nope".data)) ("x".data) (by decide)).2⟩
